import Mathlib

/-!
Shallow embedding of the sqlakeyset bookmark codec and paging logic.

Sources embedded here:
* src/sqlakeyset/serial/serial.py  (escape/unescape, Serial.serialize_value,
  Serial.unserialize_value, serialize_values/unserialize_values, the csv
  join/split with the settings from results.py)
* src/sqlakeyset/results.py        (serialize_bookmark, unserialize_bookmark,
  Paging.__init__)
* src/sqlakeyset/paging.py         (compare_tuples, where_condition_for_page,
  process_args)

Python strings are modelled as List Char.  Python exceptions are modelled by
an explicit error inductive; fallible functions return Except.  In Python,
BadBookmark is a subclass of InvalidPage which is a subclass of ValueError;
the constructors below record the exact class of the instance that is raised,
which is what `isinstance` dispatch and pytest.raises with the subclass see.
-/

namespace Sqlakeyset

/-- Python exception classes appearing in the embedded code, by exact class. -/
inductive PyErr
  | valueError
  | invalidPage
  | badBookmark
  | unregisteredType
  | pageSerializationError
  | indexError
  deriving DecidableEq, Repr

/-! ### Python string primitives

`str.replace(old, new)` and `str.split(sep)` scan left to right taking
leftmost non-overlapping occurrences.  Both are written with an explicit fuel
argument so that they are structurally recursive (the callers always pass
`fuel = length of the string`, which never runs out because every step with a
nonempty pattern consumes at least one character). -/

/-- Fuelled core of Python `str.replace(pat, rep)`. -/
def replaceAllF (pat rep : List Char) : Nat → List Char → List Char
  | _, [] => []
  | 0, s => s
  | n + 1, x :: xs =>
    if pat ≠ [] ∧ pat.isPrefixOf (x :: xs) then
      rep ++ replaceAllF pat rep n ((x :: xs).drop pat.length)
    else
      x :: replaceAllF pat rep n xs

/-- Python `s.replace(pat, rep)` for a nonempty pattern. -/
def replaceAll (pat rep s : List Char) : List Char :=
  replaceAllF pat rep s.length s

/-- Fuelled core of Python `str.split(sep)` for a nonempty separator. -/
def splitOnSeqF (sep : List Char) : Nat → List Char → List (List Char)
  | _, [] => [[]]
  | 0, s => [s]
  | n + 1, x :: xs =>
    if sep ≠ [] ∧ sep.isPrefixOf (x :: xs) then
      [] :: splitOnSeqF sep n ((x :: xs).drop sep.length)
    else
      match splitOnSeqF sep n xs with
      | [] => [[x]]
      | f :: fs => (x :: f) :: fs

/-- Python `s.split(sep)` for a nonempty separator. -/
def splitOnSeq (sep s : List Char) : List (List Char) :=
  splitOnSeqF sep s.length s

/-- serial.py escape: split on literal newlines, double any pre-existing
backslash-n inside each piece, and join the pieces with backslash-n.
`return r"\n".join(x.replace(r"\n", r"\\n") for x in x.split("\n"))` -/
def escape (x : List Char) : List Char :=
  List.intercalate ['\\', 'n']
    ((splitOnSeq ['\n'] x).map (replaceAll ['\\', 'n'] ['\\', '\\', 'n']))

/-- serial.py unescape, documented in the source as "Inverse of escape".
`return r"\n".join(x.replace(r"\n", "\n") for x in x.split(r"\\n"))` -/
def unescape (x : List Char) : List Char :=
  List.intercalate ['\\', 'n']
    ((splitOnSeq ['\\', '\\', 'n'] x).map (replaceAll ['\\', 'n'] ['\n']))

/-! ### The csv join/split used by the bookmark codec

results.py builds `s = Serial(lineterminator="", delimiter="~",
doublequote=False, escapechar="\\", quoting=csv.QUOTE_NONE)`.  With these
settings the Python csv writer emits each field with every occurrence of the
delimiter, the escape character or the quote character preceded by the escape
character (QUOTE_NONE never quotes; the empty lineterminator contributes no
further special characters), joins fields with the delimiter and appends the
empty lineterminator.  The reader treats the escape character as "take the
next character literally" (a trailing escape at end of data yields a newline
character) and the delimiter as the field boundary; under QUOTE_NONE the
quote character is an ordinary character on input. -/

/-- Characters the csv writer escapes under the settings above. -/
def csvSpecial (c : Char) : Bool :=
  c = '~' || c = '\\' || c = '"'

/-- One field as written by `csv.writer` with the Serial settings. -/
def csvEscapeField (f : List Char) : List Char :=
  f.flatMap fun c => if csvSpecial c then ['\\', c] else [c]

/-- `Serial.join`: write one row with `csv.writer` and the Serial settings. -/
def csvJoin (fields : List (List Char)) : List Char :=
  List.intercalate ['~'] (fields.map csvEscapeField)

/-- Reader state machine of `csv.reader` with the Serial settings; `acc` is
the current field, reversed. -/
def csvSplitRowAux : List Char → List Char → List (List Char)
  | [], acc => [acc.reverse]
  | '\\' :: c :: rest, acc => csvSplitRowAux rest (c :: acc)
  | ['\\'], acc => [('\n' :: acc).reverse]
  | '~' :: rest, acc => acc.reverse :: csvSplitRowAux rest []
  | c :: rest, acc => csvSplitRowAux rest (c :: acc)

/-- `Serial.split`: the first row `csv.reader` parses from the string.
(`Serial.split` is only reached with nonempty input, because
`unserialize_values` returns early on the empty string; on empty input the
Python reader would raise StopIteration.) -/
def csvSplitRow (joined : List Char) : List (List Char) :=
  csvSplitRowAux joined []

/-! ### The value codec (Serial.serialize_value / Serial.unserialize_value)

The default Serial registry covers str, int, float, bytes, Decimal, UUID,
datetime, date and time.  The value universe here keeps the three builtin
keyword values (None, True, False, which serialize without a type code) plus
the two registered types whose payload functions are arithmetic- or
string-level and hence modellable exactly: str (code "s", payload functions
escape/unescape) and int (code "i", payload functions str/int).  The float,
bytes, Decimal, UUID and date/time codecs delegate to library functions
(repr, base64, dateutil) outside this embedding; no claim below depends on
them.  Serializer dispatch over arbitrary registries, which is what the
subclass claims need, is modelled separately further down. -/

/-- A Python value in the modelled universe. -/
inductive PyV
  | vnone
  | vbool (b : Bool)
  | vstr (s : List Char)
  | vint (n : Int)
  deriving DecidableEq, Repr

/-- Python `str(n)` for an int (which is what the default int serializer is). -/
def intRepr (n : Int) : List Char :=
  (toString n).toList

/-- A digit-string to Nat; none when empty or containing a non-digit. -/
def digitsToNat : List Char → Option Nat
  | [] => Option.none
  | [c] => if c.isDigit then some (c.toNat - '0'.toNat) else Option.none
  | c :: rest =>
    if c.isDigit then
      (digitsToNat rest).map fun m => (c.toNat - '0'.toNat) * 10 ^ rest.length + m
    else Option.none

/-- Python `int(s)` as used by the "i" deserializer: an optional sign followed
by digits, anything else raises.  (Python additionally strips whitespace and
allows digit-group underscores; no input in this development uses either.) -/
def parseInt : List Char → Option Int
  | '-' :: rest => (digitsToNat rest).map fun m => -(m : Int)
  | '+' :: rest => (digitsToNat rest).map fun m => (m : Int)
  | s => (digitsToNat s).map fun m => (m : Int)

/-- `Serial.serialize_value`: look up the serializer registered for the exact
runtime type of the value (str and int in this universe) and emit
`code:payload`; on a KeyError fall through to the keyword table BUILTINS_INV,
which maps None/True/False to bare keywords. -/
def serialize_value : PyV → List Char
  | .vstr s => 's' :: ':' :: escape s
  | .vint n => 'i' :: ':' :: intRepr n
  | .vnone => ['x']
  | .vbool true => "true".toList
  | .vbool false => "false".toList

/-- `self.deserializers[code]` for the modelled registry: "s" is unescape,
"i" is int.  A deserializer that raises is an `Except.error ()`. -/
def deserLookup (c : List Char) : Option (List Char → Except Unit PyV) :=
  if c = ['s'] then some fun v => .ok (.vstr (unescape v))
  else if c = ['i'] then
    some fun v =>
      match parseInt v with
      | some n => .ok (.vint n)
      | Option.none => .error ()
  else Option.none

/-- The BUILTINS table: bare keyword tokens for None, True and False. -/
def builtinLookup (t : List Char) : Option PyV :=
  if t = ['x'] then some .vnone
  else if t = "true".toList then some (.vbool true)
  else if t = "false".toList then some (.vbool false)
  else Option.none

/-- Python `x.split(":", 1)` viewed as: the part before the first colon and
the part after it, or none when there is no colon (in which case the
two-variable unpacking in the source raises ValueError, caught there). -/
def splitFirstColon : List Char → Option (List Char × List Char)
  | [] => Option.none
  | c :: rest =>
    if c = ':' then some ([], rest)
    else (splitFirstColon rest).map fun p => (c :: p.1, p.2)

/-- `Serial.unserialize_value`: split at the first colon; with no colon the
token must be a bare keyword, otherwise BadBookmark.  With a colon, look the
code up among the deserializers; an unknown code is retried as a bare keyword
(the backwards-compatibility fallback in the source) before BadBookmark; a
deserializer that raises becomes BadBookmark. -/
def unserialize_value (x : List Char) : Except PyErr PyV :=
  match splitFirstColon x with
  | Option.none =>
    match builtinLookup x with
    | some v => .ok v
    | Option.none => .error .badBookmark
  | some (c, v) =>
    match deserLookup c with
    | some d =>
      match d v with
      | .ok r => .ok r
      | .error _ => .error .badBookmark
    | Option.none =>
      match builtinLookup c with
      | some b => .ok b
      | Option.none => .error .badBookmark

/-- `Serial.serialize_values`: None becomes the empty string, a tuple becomes
the csv join of the per-value serializations. -/
def serialize_values : Option (List PyV) → List Char
  | Option.none => []
  | some vs => csvJoin (vs.map serialize_value)

/-- `Serial.unserialize_values`: the empty string becomes None, anything else
is csv-split and deserialized value by value (the first failure propagates). -/
def unserialize_values (sv : List Char) : Except PyErr (Option (List PyV)) :=
  if sv = [] then .ok Option.none
  else (csvSplitRow sv).mapM unserialize_value |>.map some

/-! ### Bookmarks (results.py) -/

/-- types.py Marker: an optional keyset plus a direction. -/
structure Marker where
  place : Option (List PyV)
  backwards : Bool
  deriving DecidableEq, Repr

/-- results.py serialize_bookmark: None maps to None; a marker maps to a
direction character followed by the serialized keyset. -/
def serialize_bookmark : Option Marker → Option (List Char)
  | Option.none => Option.none
  | some m => some ((if m.backwards then '<' else '>') :: serialize_values m.place)

/-- results.py unserialize_bookmark: a falsy (empty) bookmark is the
start-of-resultset marker; otherwise the first character must be a direction
marker and the rest is deserialized (which may itself raise BadBookmark). -/
def unserialize_bookmark (bookmark : List Char) : Except PyErr Marker :=
  match bookmark with
  | [] => .ok ⟨Option.none, false⟩
  | direction :: rest =>
    if direction = '>' ∨ direction = '<' then
      (unserialize_values rest).map fun cells => ⟨cells, direction = '<'⟩
    else .error .badBookmark

/-! ### process_args (paging.py) -/

/-- The `after`/`before` argument of a page fetch: None, the legacy False
default, or a keyset tuple. -/
inductive KeysetArg
  | absent
  | falseLit
  | tup (k : List PyV)
  deriving DecidableEq, Repr

/-- The `page` argument: a bookmark string or a marker-like pair. -/
inductive PageArg
  | bookmark (s : List Char)
  | marker (place : Option (List PyV)) (backwards : Bool)
  deriving DecidableEq, Repr

/-- Normalization `if after is False: after = None` from the source. -/
def normFalse : KeysetArg → KeysetArg
  | .falseLit => .absent
  | a => a

/-- Python truthiness of the (already normalized) argument: a tuple is truthy
iff nonempty. -/
def keysetTruthy : KeysetArg → Bool
  | .tup k => !k.isEmpty
  | _ => false

/-- The keyset carried by a `.tup` argument. -/
def keysetOf : KeysetArg → Option (List PyV)
  | .tup k => some k
  | _ => Option.none

/-- paging.py process_args.  A string page argument is decoded first (which
may raise BadBookmark); the legacy False defaults are normalized to None;
giving both after and before, or either together with page, raises a plain
ValueError; then the marker is resolved, an absent triple meaning the first
page forwards.  (A decoded page is always a two-element marker pair here, so
the tuple-unpacking InvalidPage and the final isinstance ValueError guards of
the source are unreachable in this model.) -/
def process_args (after before : KeysetArg) (page : Option PageArg) :
    Except PyErr Marker := do
  let pageM : Option Marker ←
    match page with
    | some (.bookmark s) => (unserialize_bookmark s).map some
    | some (.marker p b) => pure (some ⟨p, b⟩)
    | Option.none => pure Option.none
  let after := normFalse after
  let before := normFalse before
  if before ≠ .absent ∧ after ≠ .absent then
    throw .valueError
  else if (before ≠ .absent ∨ after ≠ .absent) ∧ pageM ≠ Option.none then
    throw .valueError
  else
    match pageM with
    | some m => pure m
    | Option.none =>
      if keysetTruthy after then
        pure ⟨keysetOf after, false⟩
      else if keysetTruthy before then
        pure ⟨keysetOf before, true⟩
      else
        pure ⟨Option.none, false⟩

/-! ### Paging.__init__ (results.py) -/

/-- The fields Paging.__init__ computes. -/
structure PagingData (R K : Type) where
  rows : List R
  place_0 : Option K
  place_1 : Option K
  place_n : Option K
  place_nplus1 : Option K
  placesAligned : List K
  before : Option K
  first : Option K
  last : Option K
  beyond : Option K
  deriving DecidableEq, Repr

/-- Python list indexing: IndexError out of range. -/
def pyIndex {K : Type} (l : List K) (i : Nat) : Except PyErr K :=
  match l.get? i with
  | some v => .ok v
  | Option.none => .error .indexError

/-- results.py Paging.__init__ as a function of its inputs.  Rows beyond
per_page are the excess; rows is trimmed to per_page; place_1/place_n come
from the places list when there are rows, place_nplus1 when there is excess;
the places list is trimmed to align with the rows; when paging backwards the
trimmed rows, the aligned places and the four-marker list
[place_0, place_1, place_n, place_nplus1] are all reversed, and
before/first/last/beyond name that (possibly reversed) four-marker list. -/
def pagingInit {R K : Type} (rows : List R) (per_page : Nat) (backwards : Bool)
    (current_place : Option K) (places : List K) :
    Except PyErr (PagingData R K) := do
  if !rows.isEmpty ∧ places.isEmpty then
    throw .valueError
  let excess := rows.drop per_page
  let rowsT := rows.take per_page
  let place_0 := current_place
  let pair ←
    if !rowsT.isEmpty then do
      let p1 ← pyIndex places 0
      let pn ← pyIndex places (rowsT.length - 1)
      pure (some p1, some pn)
    else
      pure (Option.none, Option.none)
  let place_1 := pair.1
  let place_n := pair.2
  let place_nplus1 ←
    if !excess.isEmpty then (pyIndex places rowsT.length).map some
    else pure Option.none
  let placesA := places.take per_page
  -- reversing the four-element list [place_0, place_1, place_n, place_nplus1]
  -- yields [place_nplus1, place_n, place_1, place_0]
  pure <|
    if backwards then
      { rows := rowsT.reverse, place_0, place_1, place_n, place_nplus1,
        placesAligned := placesA.reverse,
        before := place_nplus1, first := place_n, last := place_1,
        beyond := place_0 }
    else
      { rows := rowsT, place_0, place_1, place_n, place_nplus1,
        placesAligned := placesA,
        before := place_0, first := place_1, last := place_n,
        beyond := place_nplus1 }

/-- The record pagingInit produces when no step raises, written with total
list lookups; pagingInit_ok below proves that with a places list parallel to
the rows list pagingInit returns exactly this value. -/
def pagingVal {R K : Type} (rows : List R) (pp : Nat) (bw : Bool)
    (cp : Option K) (places : List K) : PagingData R K :=
  let rowsT := rows.take pp
  let p1 : Option K := if !rowsT.isEmpty then places.get? 0 else Option.none
  let pn : Option K :=
    if !rowsT.isEmpty then places.get? (rowsT.length - 1) else Option.none
  let pn1 : Option K :=
    if !(rows.drop pp).isEmpty then places.get? rowsT.length else Option.none
  if bw then
    { rows := rowsT.reverse, place_0 := cp, place_1 := p1, place_n := pn,
      place_nplus1 := pn1, placesAligned := (places.take pp).reverse,
      before := pn1, first := pn, last := p1, beyond := cp }
  else
    { rows := rowsT, place_0 := cp, place_1 := p1, place_n := pn,
      place_nplus1 := pn1, placesAligned := places.take pp,
      before := cp, first := p1, last := pn, beyond := pn1 }

/-! ### compare_tuples and where_condition_for_page (paging.py)

The SQL clause built by the source is represented syntactically;
`and_`/`or_` take a list of subclauses, `tuple_(*a) < tuple_(*b)` is the
native row-wise comparison node. -/

/-- Syntax of the comparison clauses paging.py builds. -/
inductive Clause (α : Type)
  | lt (a b : α)
  | eqc (a b : α)
  | conj (cs : List (Clause α))
  | disj (cs : List (Clause α))
  | tupleLt (l g : List α)
  deriving Repr

/-- paging.py compare_tuples: unequal lengths raise ValueError; one column
compares directly; a dialect with native tuple comparison uses the tuple
node; otherwise the manual expansion ORs, over every depth, the conjunction
of the first `depth` equalities with the strict comparison at `depth`.
The dialect test `dialect is not None and dialect.name.lower() in
SUPPORTS_NATIVE_TUPLE_COMPARISON` is abstracted to the boolean `native`. -/
def compare_tuples {α : Type} [Inhabited α] (lesser greater : List α)
    (native : Bool) : Except PyErr (Clause α) :=
  if lesser.length ≠ greater.length then .error .valueError
  else
    match lesser, greater with
    | [l0], [g0] => .ok (.lt l0 g0)
    | lesser, greater =>
      if native then .ok (.tupleLt lesser greater)
      else
        .ok (.disj ((List.range lesser.length).map fun eq_depth =>
          .conj
            (((List.range eq_depth).map fun index =>
                Clause.eqc (lesser.getD index default) (greater.getD index default)) ++
              [Clause.lt (lesser.getD eq_depth default) (greater.getD eq_depth default)])))

/-- An operand of a page comparison: an ordering-column expression or a
marker value. -/
inductive Operand (E V : Type)
  | expr (e : E)
  | val (v : V)
  deriving Repr

instance {E V : Type} [Inhabited V] : Inhabited (Operand E V) := ⟨.val default⟩

/-- columns.py OC, reduced to the two attributes pair_for_comparison reads. -/
structure OC (E : Type) where
  comparable_value : E
  is_ascending : Bool

/-- columns.py OC.pair_for_comparison: `(a, b)` such that `a < b` says the
column is past the value in paging order — `(column, value)` when ascending,
swapped when descending.  (The optional driver-level bind coercion of the
value, a try/except that defaults to the identity, is modelled as the
identity.) -/
def pair_for_comparison {E V : Type} (c : OC E) (value : V) :
    Operand E V × Operand E V :=
  if c.is_ascending then (.expr c.comparable_value, .val value)
  else (.val value, .expr c.comparable_value)

/-- paging.py where_condition_for_page: a marker whose length differs from
the ordering columns raises InvalidPage; otherwise each pair is swapped for
comparison and unzipped — `row, place_row = zip(*swapped)`, which raises a
plain ValueError when there are no pairs to unpack — and handed to
compare_tuples with the place row as the lesser side. -/
def where_condition_for_page {E V : Type} [Inhabited V]
    (ordering_columns : List (OC E)) (place : List V) (native : Bool) :
    Except PyErr (Clause (Operand E V)) := do
  if ordering_columns.length ≠ place.length then
    throw .invalidPage
  let swapped := (ordering_columns.zip place).map fun cv =>
    pair_for_comparison cv.1 cv.2
  if swapped.isEmpty then
    throw .valueError
  let row := swapped.map Prod.fst
  let place_row := swapped.map Prod.snd
  -- compare_tuples(place_row, row, dialect): the place row is the lesser side
  compare_tuples place_row row native

/-! ### Semantics of comparison clauses over concrete values

To compare the manual expansion with the native tuple comparison, clauses
whose operands are concrete values of a linear order are evaluated to
booleans.  The semantics of the native node is the database's lexicographic
row comparison, written down from the spec (compare component 1, and only on
equality compare component 2, and so on). -/

/-- Native row-wise tuple comparison semantics, from the spec wording:
compare the first components, and only on equality compare the rest. -/
def lexLtB {α : Type} [LinearOrder α] : List α → List α → Bool
  | a :: as, b :: bs => decide (a < b) || (decide (a = b) && lexLtB as bs)
  | _, _ => false

mutual

/-- Truth value of a clause over concrete values: `<` and `==` are the value
order and equality, `and_`/`or_` are conjunction and disjunction of their
subclauses, and the native tuple node has the lexicographic semantics. -/
def evalClause {α : Type} [LinearOrder α] : Clause α → Bool
  | .lt a b => decide (a < b)
  | .eqc a b => decide (a = b)
  | .conj cs => evalConj cs
  | .disj cs => evalDisj cs
  | .tupleLt l g => lexLtB l g

/-- Conjunction of the truth values of a clause list. -/
def evalConj {α : Type} [LinearOrder α] : List (Clause α) → Bool
  | [] => true
  | c :: cs => evalClause c && evalConj cs

/-- Disjunction of the truth values of a clause list. -/
def evalDisj {α : Type} [LinearOrder α] : List (Clause α) → Bool
  | [] => false
  | c :: cs => evalClause c || evalDisj cs

end

/-- The clause the manual-expansion branch of compare_tuples builds (the
`or_(*[and_(...)])` comprehension of the source, named for reuse in proofs). -/
def manualClause {α : Type} [Inhabited α] (l g : List α) : Clause α :=
  .disj ((List.range l.length).map fun eq_depth =>
    .conj (((List.range eq_depth).map fun index =>
        Clause.eqc (l.getD index default) (g.getD index default)) ++
      [Clause.lt (l.getD eq_depth default) (g.getD eq_depth default)]))

/-- Truth value of the manual expansion, written directly as booleans: some
prefix depth has all earlier components equal and the component at that depth
strictly smaller. -/
def manualB {α : Type} [LinearOrder α] [Inhabited α] (l g : List α) : Bool :=
  (List.range l.length).any fun d =>
    ((List.range d).all fun i => decide (l.getD i default = g.getD i default)) &&
      decide (l.getD d default < g.getD d default)

/-! ### Serializer dispatch over arbitrary registries (serial.py)

`Serial.serialize_value` resolves the serializer with the single dict lookup
`self.serializers[type(x)]`.  To talk about values whose runtime type is a
subclass of a registered type, the dispatch is modelled over an explicit
registry keyed by type name and a value carrying its method resolution
order.  The same is done for the code table of `unserialize_value`. -/

/-- A Python object as the serializer dispatch sees it: the names in
`type(x).__mro__` (most derived first), the payload handed to a matching
serializer function, and the bare keyword for the value if it equals
None, True or False (the BUILTINS_INV lookup), else none. -/
structure PyInstance where
  mro : List String
  payload : String
  builtinKeyword : Option String
  deriving Repr

/-- A registry entry as built by register_type: type code plus the payload
function (an error marks a serializer that raises). -/
structure SerEntry where
  code : String
  fn : String → Except Unit String

/-- `Serial.serialize_value` over a registry: one exact lookup of `type(x)`
(the head of the mro) among the registered types; on success emit
`code:payload`, turning a raising serializer into PageSerializationError; on
a KeyError fall through to BUILTINS_INV, and raise UnregisteredType when the
value is not a keyword either.  Ancestor entries of the mro are never
consulted. -/
def serialize_value_dispatch (reg : List (String × SerEntry)) (x : PyInstance) :
    Except PyErr String :=
  match x.mro.head? >>= fun t => reg.lookup t with
  | some e =>
    match e.fn x.payload with
    | .ok out => .ok (e.code ++ ":" ++ out)
    | .error _ => .error .pageSerializationError
  | Option.none =>
    match x.builtinKeyword with
    | some k => .ok k
    | Option.none => .error .unregisteredType

/-- `Serial.unserialize_value` over an arbitrary code table and keyword
table: the same control flow as the concrete `unserialize_value` above. -/
def unserialize_value_dispatch {V : Type}
    (deser : List Char → Option (List Char → Except Unit V))
    (builtins : List Char → Option V) (x : List Char) : Except PyErr V :=
  match splitFirstColon x with
  | Option.none =>
    match builtins x with
    | some v => .ok v
    | Option.none => .error .badBookmark
  | some (c, v) =>
    match deser c with
    | some d =>
      match d v with
      | .ok r => .ok r
      | .error _ => .error .badBookmark
    | Option.none =>
      match builtins c with
      | some b => .ok b
      | Option.none => .error .badBookmark

/-! ## Helper lemmas -/

theorem evalConj_eq_all {α : Type} [LinearOrder α] (cs : List (Clause α)) :
    evalConj cs = cs.all evalClause := by
  induction cs with
  | nil => simp [evalConj]
  | cons c cs ih => simp [evalConj, ih]

theorem evalDisj_eq_any {α : Type} [LinearOrder α] (cs : List (Clause α)) :
    evalDisj cs = cs.any evalClause := by
  induction cs with
  | nil => simp [evalDisj]
  | cons c cs ih => simp [evalDisj, ih]

theorem any_map_general {β γ : Type} (l : List β) (f : β → γ) (p : γ → Bool) :
    (l.map f).any p = l.any fun x => p (f x) := by
  induction l with
  | nil => rfl
  | cons x xs ih => simp [ih]

theorem all_map_general {β γ : Type} (l : List β) (f : β → γ) (p : γ → Bool) :
    (l.map f).all p = l.all fun x => p (f x) := by
  induction l with
  | nil => rfl
  | cons x xs ih => simp [ih]

theorem any_const_and {β : Type} (r : List β) (c : Bool) (f : β → Bool) :
    (r.any fun d => c && f d) = (c && r.any f) := by
  cases c <;> simp

theorem evalClause_manualClause {α : Type} [LinearOrder α] [Inhabited α]
    (l g : List α) : evalClause (manualClause l g) = manualB l g := by
  simp [manualClause, evalClause, evalDisj_eq_any, any_map_general,
        evalConj_eq_all, List.all_append, all_map_general, manualB]

theorem manualB_cons {α : Type} [LinearOrder α] [Inhabited α] (a b : α)
    (as bs : List α) :
    manualB (a :: as) (b :: bs)
      = (decide (a < b) || (decide (a = b) && manualB as bs)) := by
  unfold manualB
  rw [List.length_cons, List.range_succ_eq_map]
  simp only [List.any_cons, any_map_general, List.range_zero, List.all_nil,
    Bool.true_and, List.getD_cons_zero, Nat.succ_eq_add_one,
    List.range_succ_eq_map, List.all_cons, all_map_general,
    List.getD_cons_succ]
  rw [← any_const_and]
  congr 1
  · congr 1
    funext d
    rw [Bool.and_assoc]

theorem manualB_eq_lexLtB {α : Type} [LinearOrder α] [Inhabited α] :
    ∀ l g : List α, l.length = g.length → manualB l g = lexLtB l g
  | [], [], _ => by simp [manualB, lexLtB]
  | [], _ :: _, h => by simp at h
  | _ :: _, [], h => by simp at h
  | a :: as, b :: bs, h => by
    rw [manualB_cons, lexLtB,
      manualB_eq_lexLtB as bs (by simpa using h)]

theorem compare_tuples_manual_eq {α : Type} [Inhabited α] (a a' b b' : α)
    (as bs : List α) (hlen : (a :: a' :: as).length = (b :: b' :: bs).length) :
    compare_tuples (a :: a' :: as) (b :: b' :: bs) false
      = .ok (manualClause (a :: a' :: as) (b :: b' :: bs)) := by
  simp [compare_tuples, manualClause, hlen]

theorem compare_tuples_native_eq {α : Type} [Inhabited α] (a a' b b' : α)
    (as bs : List α) (hlen : (a :: a' :: as).length = (b :: b' :: bs).length) :
    compare_tuples (a :: a' :: as) (b :: b' :: bs) true
      = .ok (.tupleLt (a :: a' :: as) (b :: b' :: bs)) := by
  simp [compare_tuples, hlen]

theorem compare_tuples_ok {α : Type} [Inhabited α] (l g : List α)
    (h : l.length = g.length) (native : Bool) :
    ∃ c, compare_tuples l g native = .ok c := by
  rcases l with _ | ⟨a, l'⟩ <;> rcases g with _ | ⟨b, g'⟩
  · cases native
    · exact ⟨.disj [], by simp [compare_tuples]⟩
    · exact ⟨.tupleLt [] [], by simp [compare_tuples]⟩
  · simp at h
  · simp at h
  · rcases l' with _ | ⟨a', as⟩ <;> rcases g' with _ | ⟨b', bs⟩
    · exact ⟨.lt a b, by simp [compare_tuples]⟩
    · simp at h
    · simp at h
    · cases native
      · exact ⟨_, compare_tuples_manual_eq a a' b b' as bs h⟩
      · exact ⟨_, compare_tuples_native_eq a a' b b' as bs h⟩

theorem pagingInit_ok {R K : Type} (rows : List R) (pp : Nat) (bw : Bool)
    (cp : Option K) (places : List K) (hp : places.length = rows.length) :
    pagingInit rows pp bw cp places = .ok (pagingVal rows pp bw cp places) := by
  rcases rows with _ | ⟨r, rs⟩
  · have h0 : places = [] := List.eq_nil_of_length_eq_zero hp
    subst h0
    simp [pagingInit, pagingVal, pure, Except.pure, Bind.bind, Except.bind]
  rcases places with _ | ⟨q, qs⟩
  · simp at hp
  simp only [List.length_cons] at hp
  rcases Nat.eq_zero_or_pos pp with hpp | hpp
  · subst hpp
    simp [pagingInit, pagingVal, pyIndex, pure, Except.pure, Bind.bind,
      Except.bind, Except.map]
  · have hppne : pp ≠ 0 := by omega
    simp [pagingInit, pagingVal, pyIndex, hppne, pure, Except.pure, Bind.bind,
      Except.bind, Except.map]
    have hmin1 : pp ⊓ (rs.length + 1) ≤ rs.length + 1 := Nat.min_le_right _ _
    have hminpos : 1 ≤ pp ⊓ (rs.length + 1) := le_min hpp (by omega)
    set m := pp ⊓ (rs.length + 1) with hm
    have h1 : m - 1 < (q :: qs).length := by
      simp only [List.length_cons]
      omega
    have hvn : (q :: qs)[m - 1]? = some ((q :: qs).get ⟨m - 1, h1⟩) := by
      rw [List.getElem?_eq_getElem h1]
      simp
    rw [hvn]
    by_cases hlt : pp < rs.length + 1
    · have hmeq : m = pp := Nat.min_eq_left (by omega)
      have h2 : m < (q :: qs).length := by
        simp only [List.length_cons]
        omega
      have hvp : (q :: qs)[m]? = some ((q :: qs).get ⟨m, h2⟩) := by
        rw [List.getElem?_eq_getElem h2]
        simp
      rw [hvp]
      simp [hlt]
    · simp [hlt]

/-! ## Claim theorems -/

/-- C2: for equal-length value tuples with at least two components, the
manually expanded predicate built by compare_tuples — the disjunction over
prefix depths of (prefix equalities and a strict comparison at that depth) —
evaluates to the same truth value as the native lexicographic tuple
comparison that the native branch emits. -/
theorem C2_manual_expansion_equals_native_lex {α : Type} [LinearOrder α]
    [Inhabited α] (lesser greater : List α)
    (hlen : lesser.length = greater.length) (h2 : 2 ≤ lesser.length) :
    ∃ manual nativeCl : Clause α,
      compare_tuples lesser greater false = .ok manual ∧
      compare_tuples lesser greater true = .ok nativeCl ∧
      evalClause manual = lexLtB lesser greater ∧
      evalClause nativeCl = lexLtB lesser greater := by
  rcases lesser with _ | ⟨a, lesser'⟩
  · simp at h2
  rcases lesser' with _ | ⟨a', as⟩
  · simp at h2
  rcases greater with _ | ⟨b, greater'⟩
  · simp at hlen
  rcases greater' with _ | ⟨b', bs⟩
  · simp at hlen
  exact ⟨_, _, compare_tuples_manual_eq a a' b b' as bs hlen,
    compare_tuples_native_eq a a' b b' as bs hlen,
    by rw [evalClause_manualClause, manualB_eq_lexLtB _ _ hlen],
    by simp [evalClause]⟩

/-- Witness for C2 at the integer tuples (1, 2) and (1, 3). -/
theorem C2_manual_expansion_equals_native_lex_witness :
    ∃ manual nativeCl : Clause Int,
      compare_tuples [1, 2] [1, 3] false = .ok manual ∧
      compare_tuples [1, 2] [1, 3] true = .ok nativeCl ∧
      evalClause manual = lexLtB [1, 2] [1, 3] ∧
      evalClause nativeCl = lexLtB [1, 2] [1, 3] :=
  C2_manual_expansion_equals_native_lex [1, 2] [1, 3] (by decide) (by decide)

/-- C1: the spec claims unserialize_bookmark(serialize_bookmark(m)) == m for
every valid Marker.  The code violates it: for the marker whose keyset holds
the two-character string backslash-newline, the round trip returns the
two-character string backslash-n instead, because escape maps both strings to
the same output. -/
theorem C1_bookmark_roundtrip_fails_on_backslash_newline :
    (serialize_bookmark (some ⟨some [.vstr ['\\', '\n']], false⟩)).map
        unserialize_bookmark
      = some (.ok ⟨some [.vstr ['\\', 'n']], false⟩) ∧
    Marker.mk (some [PyV.vstr ['\\', 'n']]) false
      ≠ Marker.mk (some [PyV.vstr ['\\', '\n']]) false :=
  ⟨rfl, by decide⟩

/-- C3: the spec claims unescape(escape x) == x for every string.  The code
violates it at the string backslash-newline: escape collapses it to the same
output as the string backslash-n (escape is not injective), so unescape
returns backslash-n. -/
theorem C3_escape_roundtrip_fails_on_backslash_newline :
    unescape (escape ['\\', '\n']) = ['\\', 'n'] ∧
    (['\\', 'n'] : List Char) ≠ ['\\', '\n'] ∧
    escape ['\\', '\n'] = escape ['\\', 'n'] :=
  ⟨rfl, by decide, rfl⟩

/-- C7: the claim (and the test suite, test_subclass and
test_subclass_mro_order) says a value whose exact type is unregistered but
which has a registered ancestor type serializes via the most-derived
registered ancestor.  The code resolves with a single exact-type dict lookup
and raises UnregisteredType for such a value, here an instance of a UUID
subclass while UUID itself is registered. -/
theorem C7_serialize_value_ignores_registered_ancestors :
    serialize_value_dispatch [("UUID", ⟨"uuid", fun p => .ok p⟩)]
        ⟨["SubclassedUUID", "UUID", "object"],
          "939d4cc9-830d-4cca-bd74-3ec3d541a9b3", Option.none⟩
      = .error .unregisteredType ∧
    "UUID" ∈ (["SubclassedUUID", "UUID", "object"] : List String) ∧
    (([("UUID", (⟨"uuid", fun p => .ok p⟩ : SerEntry))] :
        List (String × SerEntry)).lookup "UUID").isSome = true :=
  ⟨rfl, by decide, rfl⟩

/-- C10: serialize_bookmark maps None to None, and maps every marker to a
string whose first character is the direction marker, a less-than sign
exactly when the marker is backwards. -/
theorem C10_serialize_bookmark_none_and_direction :
    serialize_bookmark Option.none = Option.none ∧
      ∀ place bw, ∃ s, serialize_bookmark (some ⟨place, bw⟩) = some s ∧
        s.head? = some (if bw then '<' else '>') :=
  ⟨rfl, fun _ _ => ⟨_, rfl, rfl⟩⟩

/-- C5 counterexample: with zero ordering columns and an empty place the
lengths agree, yet where_condition_for_page raises — a plain ValueError from
unpacking the empty zip — instead of returning a comparison predicate. -/
theorem C5_counterexample_empty_ordering :
    where_condition_for_page ([] : List (OC Unit)) ([] : List Unit) false
      = .error .valueError ∧
    ([] : List (OC Unit)).length = ([] : List Unit).length :=
  ⟨rfl, rfl⟩

/-- C6 counterexample: giving both after and before raises the plain
ValueError of the source, whose class is not InvalidPage as the claim
states. -/
theorem C6_counterexample_plain_valueerror :
    process_args (.tup [.vint 1]) (.tup [.vint 2]) Option.none
      = .error .valueError ∧
    PyErr.valueError ≠ PyErr.invalidPage :=
  ⟨rfl, by decide⟩

/-- C8 counterexample: the token true:junk has a colon and its code part is
not a registered type code, yet unserialize_value returns True via the
keyword fallback instead of raising BadBookmark. -/
theorem C8_counterexample_keyword_code_accepted :
    unserialize_value "true:junk".toList = .ok (.vbool true) ∧
    deserLookup "true".toList = Option.none :=
  ⟨rfl, rfl⟩

/-- C9 counterexample: a bookmark starting with a valid direction character
can still raise BadBookmark, from deserializing its payload. -/
theorem C9_counterexample_direction_ok_payload_bad :
    unserialize_bookmark ['>', 'z'] = .error .badBookmark ∧
    (('>' : Char) = '>' ∨ ('>' : Char) = '<') :=
  ⟨rfl, Or.inl rfl⟩

/-- C4: constructed from a fetched row list, a page size, a direction and a
parallel places list, Paging succeeds, exposes at most per_page rows (the
forward rows are exactly the first per_page fetched rows), and a backwards
Paging presents the trimmed rows, the aligned places and the four boundary
markers reversed relative to the forward (fetch-order) presentation. -/
theorem C4_paging_trim_and_reverse {R K : Type} (rows : List R)
    (per_page : Nat) (bw : Bool) (cp : Option K) (places : List K)
    (hp : places.length = rows.length) :
    ∃ P F : PagingData R K,
      pagingInit rows per_page bw cp places = .ok P ∧
      pagingInit rows per_page false cp places = .ok F ∧
      P.rows.length ≤ per_page ∧
      F.rows = rows.take per_page ∧
      (bw = true →
        P.rows = F.rows.reverse ∧
        P.placesAligned = F.placesAligned.reverse ∧
        P.before = F.beyond ∧ P.first = F.last ∧ P.last = F.first ∧
        P.beyond = F.before) := by
  refine ⟨_, _, pagingInit_ok rows per_page bw cp places hp,
    pagingInit_ok rows per_page false cp places hp, ?_, ?_, ?_⟩
  · cases bw <;> simp [pagingVal]
  · simp [pagingVal]
  · intro h
    subst h
    simp [pagingVal]

/-- Witness for C4: three fetched rows, page size two, paging backwards. -/
theorem C4_paging_trim_and_reverse_witness :
    ∃ P F : PagingData Nat Nat,
      pagingInit [0, 1, 2] 2 true Option.none [5, 6, 7] = .ok P ∧
      pagingInit [0, 1, 2] 2 false Option.none [5, 6, 7] = .ok F ∧
      P.rows.length ≤ 2 ∧
      F.rows = [0, 1, 2].take 2 ∧
      (true = true →
        P.rows = F.rows.reverse ∧
        P.placesAligned = F.placesAligned.reverse ∧
        P.before = F.beyond ∧ P.first = F.last ∧ P.last = F.first ∧
        P.beyond = F.before) :=
  C4_paging_trim_and_reverse [0, 1, 2] 2 true Option.none [5, 6, 7] (by decide)

/-- C5 amended: where_condition_for_page raises InvalidPage whenever the
marker length differs from the number of ordering columns, and returns a
comparison predicate without raising whenever the lengths are equal and
nonzero; with both empty it instead raises a plain ValueError (from unpacking
an empty zip). -/
theorem C5_arity_check_and_success {E V : Type} [Inhabited V]
    (ordering_columns : List (OC E)) (place : List V) (native : Bool) :
    (ordering_columns.length ≠ place.length →
      where_condition_for_page ordering_columns place native
        = .error .invalidPage) ∧
    (ordering_columns.length = place.length → ordering_columns ≠ [] →
      ∃ c, where_condition_for_page ordering_columns place native = .ok c) := by
  constructor
  · intro h
    simp [where_condition_for_page, h, Bind.bind, Except.bind]
  · intro h hne
    have hswne : ¬((ordering_columns.zip place).map fun cv =>
        pair_for_comparison cv.1 cv.2).isEmpty := by
      rcases ordering_columns with _ | ⟨o, os⟩
      · exact absurd rfl hne
      · rcases place with _ | ⟨p, ps⟩
        · simp at h
        · simp
    obtain ⟨c, hc⟩ := compare_tuples_ok
      (((ordering_columns.zip place).map fun cv =>
        pair_for_comparison cv.1 cv.2).map Prod.snd)
      (((ordering_columns.zip place).map fun cv =>
        pair_for_comparison cv.1 cv.2).map Prod.fst)
      (by simp) native
    simp only [List.map_map] at hc
    refine ⟨c, ?_⟩
    simp [where_condition_for_page, h, hswne, hc]

/-- Witness for C5: one ascending column against a two-value marker raises
InvalidPage, and against a one-value marker a predicate is returned. -/
theorem C5_arity_check_and_success_witness :
    where_condition_for_page [(⟨(), true⟩ : OC Unit)] [(), ()] false
      = .error .invalidPage ∧
    ∃ c, where_condition_for_page [(⟨(), true⟩ : OC Unit)] [()] false
      = .ok c :=
  ⟨(C5_arity_check_and_success [⟨(), true⟩] [(), ()] false).1 (by decide),
   (C5_arity_check_and_success [⟨(), true⟩] [()] false).2 (by decide)
     (List.cons_ne_nil _ _)⟩

/-- C6 amended: process_args raises a plain ValueError (not its InvalidPage
subclass) whenever more than one of page, after and before is given; with at
most one given it succeeds — after paging forwards from its keyset, before
backwards, page as its marker — and with all three absent (either None or the
legacy False default) it resolves to the first-page-forward marker. -/
theorem C6_process_args_validation :
    (∀ ka kb, process_args (.tup ka) (.tup kb) Option.none
        = .error .valueError) ∧
    (∀ ka kb place bw, process_args (.tup ka) (.tup kb)
        (some (.marker place bw)) = .error .valueError) ∧
    (∀ ka place bw, process_args (.tup ka) .absent
        (some (.marker place bw)) = .error .valueError) ∧
    (∀ kb place bw, process_args .absent (.tup kb)
        (some (.marker place bw)) = .error .valueError) ∧
    process_args .absent .absent Option.none = .ok ⟨Option.none, false⟩ ∧
    (∀ k, k ≠ [] → process_args (.tup k) .absent Option.none
        = .ok ⟨some k, false⟩) ∧
    (∀ k, k ≠ [] → process_args .absent (.tup k) Option.none
        = .ok ⟨some k, true⟩) ∧
    (∀ place bw, process_args .absent .absent (some (.marker place bw))
        = .ok ⟨place, bw⟩) ∧
    process_args .falseLit .falseLit Option.none = .ok ⟨Option.none, false⟩ := by
  refine ⟨fun ka kb => rfl, fun ka kb place bw => rfl, fun ka place bw => rfl,
    fun kb place bw => rfl, rfl, ?_, ?_, fun place bw => rfl, rfl⟩
  · intro k hk
    rcases k with _ | ⟨x, xs⟩
    · exact absurd rfl hk
    · rfl
  · intro k hk
    rcases k with _ | ⟨x, xs⟩
    · exact absurd rfl hk
    · rfl

/-- Witness for C6: a one-value keyset as after, then as before. -/
theorem C6_process_args_validation_witness :
    process_args (.tup [PyV.vint 7]) .absent Option.none
      = .ok ⟨some [PyV.vint 7], false⟩ ∧
    process_args .absent (.tup [PyV.vint 7]) Option.none
      = .ok ⟨some [PyV.vint 7], true⟩ :=
  ⟨C6_process_args_validation.2.2.2.2.2.1 [PyV.vint 7] (by decide),
   C6_process_args_validation.2.2.2.2.2.2.1 [PyV.vint 7] (by decide)⟩

/-- C8 amended: unserialize_value splits a token at its first colon; the code
part is looked up among the registered deserializer codes, an unknown code
falls back to the bare builtin keywords (returning the keyword value and
ignoring the payload) before raising BadBookmark, a deserializer that raises
becomes BadBookmark, and tokens without a colon decode to a bare keyword or
raise BadBookmark. -/
theorem C8_unserialize_dispatch_error_handling {V : Type}
    (deser : List Char → Option (List Char → Except Unit V))
    (builtins : List Char → Option V) (tok : List Char) :
    (∀ c v, splitFirstColon tok = some (c, v) → deser c = Option.none →
        builtins c = Option.none →
        unserialize_value_dispatch deser builtins tok = .error .badBookmark) ∧
    (∀ c v b, splitFirstColon tok = some (c, v) → deser c = Option.none →
        builtins c = some b →
        unserialize_value_dispatch deser builtins tok = .ok b) ∧
    (∀ c v d r, splitFirstColon tok = some (c, v) → deser c = some d →
        d v = .ok r →
        unserialize_value_dispatch deser builtins tok = .ok r) ∧
    (∀ c v d e, splitFirstColon tok = some (c, v) → deser c = some d →
        d v = .error e →
        unserialize_value_dispatch deser builtins tok = .error .badBookmark) ∧
    (splitFirstColon tok = Option.none → builtins tok = Option.none →
        unserialize_value_dispatch deser builtins tok = .error .badBookmark) ∧
    (∀ b, splitFirstColon tok = Option.none → builtins tok = some b →
        unserialize_value_dispatch deser builtins tok = .ok b) := by
  refine ⟨?_, ?_, ?_, ?_, ?_, ?_⟩ <;>
    intros <;> simp_all [unserialize_value_dispatch]

/-- Witness for C8 with the default registry: the token q:1 has an unknown
code that is not a keyword either, so BadBookmark. -/
theorem C8_unserialize_dispatch_error_handling_witness :
    unserialize_value_dispatch deserLookup builtinLookup "q:1".toList
      = .error .badBookmark :=
  (C8_unserialize_dispatch_error_handling deserLookup builtinLookup
    "q:1".toList).1 "q".toList "1".toList rfl rfl rfl

/-- C9 amended: unserialize_bookmark maps the empty bookmark to the
start-of-resultset marker without raising; a nonempty bookmark whose first
character is not a direction marker raises BadBookmark; and with a valid
direction character the result is exactly that of deserializing the payload
(so BadBookmark is also raised when the payload fails to parse). -/
theorem C9_unserialize_bookmark_empty_and_errors :
    unserialize_bookmark [] = .ok ⟨Option.none, false⟩ ∧
    (∀ c rest, c ≠ '>' → c ≠ '<' →
      unserialize_bookmark (c :: rest) = .error .badBookmark) ∧
    (∀ c rest, c = '>' ∨ c = '<' →
      unserialize_bookmark (c :: rest)
        = (unserialize_values rest).map fun cells => ⟨cells, c = '<'⟩) := by
  refine ⟨rfl, ?_, ?_⟩
  · intro c rest h1 h2
    simp [unserialize_bookmark, h1, h2]
  · intro c rest h
    rcases h with h | h <;> subst h <;> simp [unserialize_bookmark]

/-- Witness for C9: a bookmark with an invalid leading character raises, and
an empty backwards bookmark parses via the payload deserializer. -/
theorem C9_unserialize_bookmark_empty_and_errors_witness :
    unserialize_bookmark ['q'] = .error .badBookmark ∧
    unserialize_bookmark ['<', 'x'] = (unserialize_values ['x']).map
      (fun cells => ⟨cells, ('<' : Char) = '<'⟩) :=
  ⟨C9_unserialize_bookmark_empty_and_errors.2.1 'q' [] (by decide) (by decide),
   C9_unserialize_bookmark_empty_and_errors.2.2 '<' ['x'] (Or.inr rfl)⟩

end Sqlakeyset
